import Mathlib

/-!
Verification of the ClaudePlaysPokemonStarter agent core.

We give a shallow embedding of the Python sources:
  * `src/config.py`          — configuration constants
  * `src/ollama_client.py`   — `OllamaClient.chat_via_client`, `OllamaClient.call_tool_from_response`
  * `src/agent/agent.py`     — `SimpleAgent` (history lifecycle, run loop, fallback parser, stop)
  * `src/main.py`            — entry point (stop-on-exit behaviour)

Python values that matter to the claims are modelled precisely:
  * a backend reply is either an attribute-style object (the `ChatResponse` of the ollama library, with a `message` attribute carrying `content` and an
    optional `tool_calls` list) or a plain dict (the error reply built by the adapter itself
    `\x7b"message": \x7b"content": ...\x7d\x7d`); attribute access `response.message` on a
    plain dict raises `AttributeError`, which we model with `Except PyError`;
  * Python lists are Lean lists; dict-shaped messages become the `PyMsg`
    structure; `dict.get` becomes `List.lookup` over an association list;
  * the emulator and the backend are opaque collaborators, modelled as oracle
    streams in `Env`;
  * `str.upper` is modelled by `String.toUpper` (ASCII case folding, as in the
    button-token alphabet the code matches against).
-/

namespace PokeStarter

/-- One typed content part of a rich message (agent.py builds text parts and
base64 image parts with a media type). -/
inductive Part where
  | text (s : String)
  | image (mediaType : String) (data : String)
deriving DecidableEq, Repr

/-- A Python message content is either a bare string or a list of typed parts. -/
inductive Content where
  | str (s : String)
  | parts (ps : List Part)
deriving DecidableEq, Repr

/-- A message dict: role plus content (the history entries of agent.py and the
flattened messages sent to ollama share this shape). -/
structure PyMsg where
  role : String
  content : Content
deriving DecidableEq, Repr

/-- A structured tool call carried inside an ollama response object
(`tool.function.name`, `tool.function.arguments`). Arguments are an
association list of parameter name to value. -/
structure ToolCall where
  name : String
  args : List (String × String)
deriving DecidableEq, Repr

/-- The `message` attribute of an ollama `ChatResponse` object: assistant text
plus an optional list of tool calls (absent/None or a list). -/
structure ObjMessage where
  content : String
  tool_calls : Option (List ToolCall)
deriving DecidableEq, Repr

/-- A value returned by `chat_via_client`: either the attribute-style
response object of the backend library, or the plain-dict error reply built by
the adapter itself
holding only a message/content entry. -/
inductive Response where
  | obj (message : ObjMessage)
  | dict (content : String)
deriving DecidableEq, Repr

/-- Python exceptions that the embedded code can raise. Attribute access on a
value lacking the attribute raises `attributeError`; other exceptions carry a
message string. -/
inductive PyError where
  | attributeError (msg : String)
  | exn (msg : String)
deriving DecidableEq, Repr

/-- A registered tool implementation: takes the argument mapping and either
returns a result value or raises (modelled as `Except.error`). -/
def Func : Type := List (String × String) → Except String String

/-- One entry of the result list built by `call_tool_from_response`: the tool
name, the arguments, and either a success payload or an error message. -/
structure ToolResult where
  tool : String
  args : List (String × String)
  outcome : Except String String
deriving Repr

/-! ### config.py constants (verbatim values) -/

/-- config.py `SYSTEM_PROMPT`. -/
def SYSTEM_PROMPT : String :=
  "You are playing Pokemon Red. You can see the game screen and control the game by executing emulator commands.\n\nYour goal is to play through Pokemon Red and eventually defeat the Elite Four. Make decisions based on what you see on the screen.\n\nBefore each action, explain your reasoning briefly, then use the emulator tool to execute your chosen commands.\n\nThe conversation history may occasionally be summarized to save context space. If you see a message labeled \"CONVERSATION HISTORY SUMMARY\", this contains the key information about your progress so far. Use this information to maintain continuity in your gameplay."

/-- config.py `SUMMARY_PROMPT`. -/
def SUMMARY_PROMPT : String :=
  "I need you to create a detailed summary of our conversation history up to this point. This summary will replace the full conversation history to manage the context window.\n\nPlease include:\n1. Key game events and milestones you\x27ve reached\n2. Important decisions you\x27ve made\n3. Current objectives or goals you\x27re working toward\n4. Your current location and Pokémon team status\n5. Any strategies or plans you\x27ve mentioned\n\nThe summary should be comprehensive enough that you can continue gameplay without losing important context about what has happened so far."

/-- agent.py `MAX_HISTORY` (maximum number of message pairs kept in history). -/
def MAX_HISTORY : Nat := 10

/-! ### ollama_client.py -/

/-- Embedding of `OllamaClient.chat_via_client`. The outcome of the underlying
`self.client.chat(...)` call is the parameter: `.ok msg` when the backend
returned a response object, `.error e` when it raised with message `e`. The
adapter catches every exception and returns the dict
`\x7b"message": \x7b"content": "Error: " + str(e)\x7d\x7d`; it never raises, hence the
return type is `Response`, not `Except`. -/
def chat_via_client (backendOutcome : Except String ObjMessage) : Response :=
  match backendOutcome with
  | Except.ok msg => Response.obj msg
  | Except.error e => Response.dict ("Error: " ++ e)

/-- The assistant text extracted from a reply the way agent.py does it
(`"message" in response and "content" in response["message"]`): both response
shapes carry a message/content entry. -/
def replyContent (r : Response) : String :=
  match r with
  | Response.obj m => m.content
  | Response.dict c => c

/-- The tool-call entries structurally present in a reply: a response object
carries its `tool_calls` list (if any); a plain dict reply has no tool-call
entry at all. -/
def responseToolCalls (r : Response) : List ToolCall :=
  match r with
  | Response.obj m => m.tool_calls.getD []
  | Response.dict _ => []

/-- Embedding of the per-call loop body of `call_tool_from_response`: look
the name up in `available_functions` (a dict from names to callables); if
found, call it, capturing a raised exception as an error entry; otherwise
record a "Function ... not found" error entry. -/
def execToolCall (available_functions : List (String × Func)) (tc : ToolCall) : ToolResult :=
  match available_functions.lookup tc.name with
  | some f =>
    match f tc.args with
    | Except.ok r => { tool := tc.name, args := tc.args, outcome := Except.ok r }
    | Except.error e => { tool := tc.name, args := tc.args, outcome := Except.error e }
  | none =>
    { tool := tc.name, args := tc.args,
      outcome := Except.error ("Function " ++ tc.name ++ " not found") }

/-- Embedding of `OllamaClient.call_tool_from_response`. The source evaluates
`hasattr(response.message, ...) and response.message.tool_calls` (probing the
`tool_calls` attribute):
  * on a plain dict (the error reply built by the adapter itself) the attribute access
    `response.message` raises `AttributeError` — dicts have no attributes —
    so the call raises instead of returning;
  * on a response object, a missing/None or empty `tool_calls` list skips the
    loop and the empty result list is returned;
  * otherwise each tool call is executed in order and yields one result entry
    (mapping over the list: each entry depends only on its own call). -/
def call_tool_from_response (response : Response)
    (available_functions : List (String × Func)) : Except PyError (List ToolResult) :=
  match response with
  | Response.dict _ =>
    Except.error (PyError.attributeError ("dict object has no attribute message"))
  | Response.obj msg =>
    match msg.tool_calls with
    | none => Except.ok []
    | some calls => Except.ok (calls.map (execToolCall available_functions))

/-! ### agent.py — text fallback parser -/

/-- agent.py `valid_buttons`, in source order (the fixed enumeration order). -/
def valid_buttons : List String :=
  ["A", "B", "START", "SELECT", "UP", "DOWN", "LEFT", "RIGHT"]

/-- The Python substring operator `pat in s` on character lists: `pat` matches at
some position of `s`. -/
def containsSub : List Char → List Char → Bool
  | [], pat => pat.isEmpty
  | c :: rest, pat => pat.isPrefixOf (c :: rest) || containsSub rest pat

/-- Python `content.upper()` at character level (ASCII case folding, which is
all the button alphabet needs). -/
def upperChars (content : String) : List Char := content.toList.map Char.toUpper

/-- Embedding of the parsing done by
`SimpleAgent._parse_and_execute_text_response`: the
content is upper-cased, then each valid button (in enumeration order) that
occurs as a substring is collected once. The function returns the
`buttons_to_press` batch; the subsequent emulator press is modelled in
`process_response`. -/
def parse_text_response (content : String) : List String :=
  valid_buttons.filter (fun b => containsSub (upperChars content) b.toList)

/-! ### agent.py — message construction and flattening -/

/-- The initial observation message built by `_send_initial_observation`. -/
def initial_message (screenshot_b64 : String) : PyMsg :=
  { role := "user",
    content := Content.parts [
      Part.text ("You are playing Pokémon Red. What do you want to do? You can press buttons like A, B, START, SELECT, UP, DOWN, LEFT, and RIGHT."),
      Part.image ("image/png") screenshot_b64] }

/-- The per-step user message built by `_get_next_action`. -/
def user_turn_message (location coordinates screenshot_b64 : String) : PyMsg :=
  { role := "user",
    content := Content.parts [
      Part.text ("Current game state:\nLocation: " ++ location ++ "\nCoordinates: " ++ coordinates ++ "\n\nWhat button(s) would you like to press next?"),
      Part.image ("image/png") screenshot_b64] }

/-- Flattening of one content part in `_format_messages_for_ollama`: text parts
keep their text, image parts degrade to a fixed placeholder; each contributes a
trailing newline. -/
def flattenPart (p : Part) : String :=
  match p with
  | Part.text t => t ++ "\n"
  | Part.image _ _ => "[IMAGE: Game Screenshot]\n"

/-- Flattening of a message content: list contents are concatenated part by
part, string contents pass through unchanged. -/
def flattenContent : Content → String
  | Content.str s => s
  | Content.parts ps => ps.foldl (fun acc p => acc ++ flattenPart p) ""

/-- The flattened (text-only) copy of a history message that
`_format_messages_for_ollama` builds: same role, flattened string content. -/
def flattenMsg (m : PyMsg) : PyMsg :=
  { role := m.role, content := Content.str (flattenContent m.content) }

/-- The system-prompt message heading every flattened conversation. -/
def system_message : PyMsg :=
  { role := "system", content := Content.str SYSTEM_PROMPT }

/-- Embedding of `SimpleAgent._format_messages_for_ollama`: a fresh list whose
head is the system prompt message followed by a flattened copy of every
history entry. -/
def format_messages_for_ollama (history : List PyMsg) : List PyMsg :=
  system_message :: history.map flattenMsg

/-- The synthetic summarization-request message appended (to the local copy)
by `summarize_history`. -/
def summary_request_message : PyMsg :=
  { role := "user", content := Content.str SUMMARY_PROMPT }

/-- The single synthetic turn that `summarize_history` installs as the whole
new history: summary text annotated with the configured `max_history` count,
an introduction text, the fresh screenshot, and a trailing invitation text. -/
def synthetic_summary_turn (max_history : Nat) (summary_text screenshot_b64 : String) : PyMsg :=
  { role := "user",
    content := Content.parts [
      Part.text ("CONVERSATION HISTORY SUMMARY (representing " ++ toString max_history ++ " previous messages): " ++ summary_text),
      Part.text ("\n\nCurrent game screenshot for reference:"),
      Part.image ("image/png") screenshot_b64,
      Part.text ("You were just asked to summarize your playthrough so far, which is the summary you see above. You may now continue playing by selecting your next action.")] }

/-! ### agent.py — agent state, collaborators and the run loop

The emulator and the backend are opaque collaborators (the emulator module is
not part of the orchestration core); `Env` packages them as oracle streams:
the k-th backend chat call gets outcome `backend k`, the k-th screenshot is
`screenshot k`, and so on. The agent state carries the fields of
`SimpleAgent` that the core mutates plus counters recording how many times
each collaborator entry point was invoked (the interaction trace the claims
speak about). -/

structure Env where
  backend : Nat → Except String ObjMessage
  screenshot : Nat → String
  coordinates : Nat → String
  location : Nat → String
  press_buttons : List String → Except String String
  pressToolFunc : Func
  pressSingleFunc : Func

structure AgentState where
  message_history : List PyMsg
  running : Bool
  max_history : Nat
  chatCalls : Nat
  shotCalls : Nat
  emuStopCalls : Nat
  userAppends : Nat
  assistantAppends : Nat
deriving Repr

/-- The state produced by `SimpleAgent.__init__`: empty history, not running,
`max_history = MAX_HISTORY`, no collaborator calls yet. -/
def initAgentState : AgentState :=
  { message_history := [], running := false, max_history := MAX_HISTORY,
    chatCalls := 0, shotCalls := 0, emuStopCalls := 0,
    userAppends := 0, assistantAppends := 0 }

/-- Embedding of `SimpleAgent.get_available_functions`: the tool registry maps
"press_buttons" to the press method of the emulator and "press" to a single-button
wrapper; both are opaque collaborator callables supplied by `Env`. -/
def get_available_functions (env : Env) : List (String × Func) :=
  [("press_buttons", env.pressToolFunc), ("press", env.pressSingleFunc)]

/-- Embedding of `SimpleAgent._send_initial_observation`: take a screenshot and
append the initial observation message to the history. -/
def send_initial_observation (env : Env) (s : AgentState) : AgentState :=
  let shot := env.screenshot s.shotCalls
  { s with shotCalls := s.shotCalls + 1,
           message_history := s.message_history ++ [initial_message shot] }

/-- Embedding of `SimpleAgent._get_next_action`: take a screenshot, read the
coordinates and location, append the per-step user message to the history,
then query the backend through `chat_via_client` with the flattened history. -/
def get_next_action (env : Env) (s : AgentState) : AgentState × Response :=
  let shot := env.screenshot s.shotCalls
  let s1 := { s with shotCalls := s.shotCalls + 1 }
  let msg := user_turn_message (env.location s.shotCalls) (env.coordinates s.shotCalls) shot
  let s2 := { s1 with message_history := s1.message_history ++ [msg],
                      userAppends := s1.userAppends + 1 }
  let response := chat_via_client (env.backend s2.chatCalls)
  let s3 := { s2 with chatCalls := s2.chatCalls + 1 }
  (s3, response)

/-- Embedding of `SimpleAgent._process_response`: extract the assistant text,
append it as an assistant turn, then run `call_tool_from_response` (whose
`AttributeError` on a dict reply propagates, there is no try around it). If it
returns no results, fall back to text parsing; a nonempty parsed batch is
pressed on the emulator, whose exceptions also propagate uncaught here. -/
def process_response (env : Env) (s : AgentState) (response : Response) :
    Except PyError AgentState :=
  let content := replyContent response
  let s1 := { s with
    message_history := s.message_history ++ [{ role := "assistant", content := Content.str content }],
    assistantAppends := s.assistantAppends + 1 }
  match call_tool_from_response response (get_available_functions env) with
  | Except.error e => Except.error e
  | Except.ok results =>
    if results.isEmpty then
      let buttons := parse_text_response content
      if buttons.isEmpty then Except.ok s1
      else
        match env.press_buttons buttons with
        | Except.ok _ => Except.ok s1
        | Except.error e => Except.error (PyError.exn e)
    else Except.ok s1

/-- Embedding of `SimpleAgent.summarize_history`: take a fresh screenshot,
build the flattened messages plus the summarization request (a local list, see
the heap-level model below for the aliasing analysis), query the backend, and
replace the entire history with the single synthetic summary turn. -/
def summarize_history (env : Env) (s : AgentState) : AgentState :=
  let shot := env.screenshot s.shotCalls
  let s1 := { s with shotCalls := s.shotCalls + 1 }
  let _messages := format_messages_for_ollama s1.message_history ++ [summary_request_message]
  let response := chat_via_client (env.backend s1.chatCalls)
  let s2 := { s1 with chatCalls := s1.chatCalls + 1 }
  let summary_text := replyContent response
  { s2 with message_history := [synthetic_summary_turn s2.max_history summary_text shot] }

/-- The summarization check at the end of each `run` iteration:
`if len(self.message_history) > self.max_history * 2: self.summarize_history()`. -/
def summarize_check (env : Env) (s : AgentState) : AgentState :=
  if s.message_history.length > s.max_history * 2 then summarize_history env s else s

/-- The first two statements of the `run` loop body: `_get_next_action`
followed by `_process_response`. The state this returns is the state at the
moment the summarization check is evaluated. -/
def step_append_phase (env : Env) (s : AgentState) : Except PyError AgentState :=
  let p := get_next_action env s
  process_response env p.1 p.2

/-- One iteration of the `run` while-loop body (action query, response
processing, then the summarization check). -/
def agent_step (env : Env) (s : AgentState) : Except PyError AgentState :=
  match step_append_phase env s with
  | Except.error e => Except.error e
  | Except.ok s2 => Except.ok (summarize_check env s2)

/-- The `while self.running and steps_completed < num_steps` loop, with the
remaining budget `num_steps - steps_completed` as structural fuel. Returns the
final `steps_completed` and state, or the uncaught exception. -/
def run_loop (env : Env) : Nat → Nat → AgentState → Except PyError (Nat × AgentState)
  | 0, steps_completed, s => Except.ok (steps_completed, s)
  | fuel + 1, steps_completed, s =>
    if s.running then
      match agent_step env s with
      | Except.error e => Except.error e
      | Except.ok s2 => run_loop env fuel (steps_completed + 1) s2
    else Except.ok (steps_completed, s)

/-- Embedding of `SimpleAgent.run`: set `running`, send the initial
observation, then execute the loop for the given step budget. -/
def run (env : Env) (num_steps : Nat) : Except PyError (Nat × AgentState) :=
  let s0 := { initAgentState with running := true }
  let s1 := send_initial_observation env s0
  run_loop env num_steps 0 s1

/-- Embedding of `SimpleAgent.stop`: clears the running flag and then
unconditionally invokes `self.emulator.stop()` — every call adds one emulator
teardown invocation, there is no guard against repetition. -/
def stop (s : AgentState) : AgentState :=
  { s with running := false, emuStopCalls := s.emuStopCalls + 1 }

/-! ### Heap-level model of `summarize_history` (aliasing analysis)

To settle the frame/aliasing claim about `summarize_history` we re-translate
it at the granularity of Python list objects: a heap maps references (indices)
to list values; `self.message_history` is a reference into the heap;
`_format_messages_for_ollama` allocates a fresh list (`ollama_messages = [...]`)
and appends flattened copies to it; `messages.append(...)` mutates the local
cell of the local list; the final assignment rebinds `self.message_history` to a freshly
allocated list. -/

abbrev Heap := List (List PyMsg)

/-- Dereference: the list value stored at reference `r`. -/
def hget (h : Heap) (r : Nat) : List PyMsg := h.getD r []

/-- Allocation of a fresh list object: returns the new heap and the new
reference. -/
def halloc (h : Heap) (v : List PyMsg) : Heap × Nat := (h ++ [v], h.length)

/-- In-place `list.append` on the object at reference `r`. -/
def happend (h : Heap) (r : Nat) (m : PyMsg) : Heap := h.set r (hget h r ++ [m])

/-- Heap-level `_format_messages_for_ollama`: allocate `ollama_messages` as a
fresh one-element list holding the system message, then append a flattened
copy of every entry of the history object — the history cell is only read. -/
def format_messages_heap (h : Heap) (histRef : Nat) : Heap × Nat :=
  let p := halloc h [system_message]
  let h2 := (hget p.1 histRef).foldl (fun hh m => happend hh p.2 (flattenMsg m)) p.1
  (h2, p.2)

/-- Observation record for the heap-level run of `summarize_history`. -/
structure SummarizeTrace where
  heapAtChat : Heap
  sent : List PyMsg
  msgsRef : Nat
  finalHeap : Heap
  finalHistRef : Nat
deriving Repr

/-- Heap-level `summarize_history`: build the flattened copy, append the
summarization request to that local list, send it to the backend (`sent` and
`heapAtChat` record that moment), then allocate the replacement history and
rebind `self.message_history` to it. -/
def summarize_history_heap (h : Heap) (histRef : Nat)
    (backendOutcome : Except String ObjMessage)
    (max_history : Nat) (screenshot_b64 : String) : SummarizeTrace :=
  let p := format_messages_heap h histRef
  let h2 := happend p.1 p.2 summary_request_message
  let sent := hget h2 p.2
  let response := chat_via_client backendOutcome
  let summary_text := replyContent response
  let q := halloc h2 [synthetic_summary_turn max_history summary_text screenshot_b64]
  { heapAtChat := h2, sent := sent, msgsRef := p.2,
    finalHeap := q.1, finalHistRef := q.2 }

/-! ### Derived observations and invariants -/

/-- The step count returned by `run` (0 when the run raised). -/
def runStepsOf (r : Except PyError (Nat × AgentState)) : Nat :=
  match r with
  | Except.ok p => p.1
  | Except.error _ => 0

/-- The final agent state of a `run` outcome (initial state when it raised). -/
def runStateOf (r : Except PyError (Nat × AgentState)) : AgentState :=
  match r with
  | Except.ok p => p.2
  | Except.error _ => initAgentState

/-- A well-behaved collaborator environment: every backend chat call returns a
response object and every emulator button press returns normally. -/
def TotalEnv (env : Env) : Prop :=
  (∀ k, (env.backend k).isOk = true) ∧ (∀ bs, (env.press_buttons bs).isOk = true)

/-- The history-length invariant of the run loop at step boundaries: the
length is odd, bounded by `2 * max_history`, and `max_history` is positive. -/
def HistInv (s : AgentState) : Prop :=
  s.message_history.length % 2 = 1 ∧
  s.message_history.length ≤ 2 * s.max_history ∧
  1 ≤ s.max_history

/-- The content parts of a message (empty for bare-string content). -/
def partsOf (m : PyMsg) : List Part :=
  match m.content with
  | Content.parts ps => ps
  | Content.str _ => []

def isImagePart : Part → Bool
  | Part.image _ _ => true
  | Part.text _ => false

def isTextPart : Part → Bool
  | Part.text _ => true
  | Part.image _ _ => false

/-! ### Concrete sample inputs (used by the witnesses) -/

def sampleObjMessage : ObjMessage := { content := "I will press A", tool_calls := none }

def sampleEnv : Env :=
  { backend := fun _ => Except.ok sampleObjMessage,
    screenshot := fun _ => "iVBORw0KGgo=",
    coordinates := fun _ => "(3, 4)",
    location := fun _ => "PALLET TOWN",
    press_buttons := fun _ => Except.ok ("pressed"),
    pressToolFunc := fun _ => Except.ok ("pressed"),
    pressSingleFunc := fun _ => Except.ok ("pressed") }

def sampleMsg : PyMsg := { role := "user", content := Content.str ("hello") }

/-- A state whose history holds 21 turns, exceeding `2 * max_history = 20`. -/
def sampleState21 : AgentState :=
  { initAgentState with running := true, message_history := List.replicate 21 sampleMsg }

def sampleFunc : Func := fun _ => Except.ok ("pressed")

def sampleRegistry : List (String × Func) := [("press_buttons", sampleFunc)]

def unknownCall : ToolCall := { name := "navigate_to", args := [("row", "1")] }

def knownCall : ToolCall := { name := "press_buttons", args := [("buttons", "a")] }

/-- A one-object heap: `self.message_history` is reference 0 holding one turn. -/
def sampleHeap : Heap := [[sampleMsg]]

/-- The state reached by `run` right after the initial observation. -/
def samplePostInit : AgentState :=
  send_initial_observation sampleEnv { initAgentState with running := true }

/-- The state at the first summarization check of a sample run (extracted from
the outcome of the step; the fallback default is never used, see the witness). -/
def sampleMid : AgentState :=
  match step_append_phase sampleEnv samplePostInit with
  | Except.ok s => s
  | Except.error _ => initAgentState

/-! ### Helper lemmas -/

/-- The embedded Python substring test agrees with list infix. -/
theorem containsSub_occurs (pat s : List Char) : containsSub s pat = true ↔ pat <:+: s := by
  induction s with
  | nil => simp [containsSub, List.isEmpty_iff, List.infix_nil]
  | cons c rest ih =>
    simp only [containsSub, Bool.or_eq_true, List.isPrefixOf_iff_prefix, ih,
      List.infix_cons_iff]

/-- Every successful outcome of `process_response` is the input state with
exactly the assistant turn appended (whatever branch was taken). -/
theorem process_response_ok_shape (env : Env) (s s2 : AgentState) (r : Response)
    (h : process_response env s r = Except.ok s2) :
    s2 = { s with
      message_history := s.message_history ++
        [{ role := "assistant", content := Content.str (replyContent r) }],
      assistantAppends := s.assistantAppends + 1 } := by
  simp only [process_response] at h
  split at h
  · cases h
  · split at h
    · split at h
      · exact (Except.ok.inj h).symm
      · split at h
        · exact (Except.ok.inj h).symm
        · cases h
    · exact (Except.ok.inj h).symm

/-- On an attribute-style response object, `process_response` returns normally
(no tool-call attribute error is possible and, when the emulator press cannot
raise, neither can the fallback press). -/
theorem process_response_obj_ok (env : Env) (s : AgentState) (m : ObjMessage)
    (hp : ∀ bs, (env.press_buttons bs).isOk = true) :
    process_response env s (Response.obj m) = Except.ok { s with
      message_history := s.message_history ++
        [{ role := "assistant", content := Content.str m.content }],
      assistantAppends := s.assistantAppends + 1 } := by
  simp only [process_response, replyContent]
  cases hc : call_tool_from_response (Response.obj m) (get_available_functions env) with
  | error e =>
    exfalso
    simp only [call_tool_from_response] at hc
    cases htc : m.tool_calls with
    | none => rw [htc] at hc; simp at hc
    | some calls => rw [htc] at hc; simp at hc
  | ok results =>
    by_cases hres : results.isEmpty
    · simp only [hres, if_true]
      by_cases hbtn : (parse_text_response m.content).isEmpty
      · simp [hbtn]
      · simp only [hbtn, if_false]
        cases hpress : env.press_buttons (parse_text_response m.content) with
        | ok v => rfl
        | error e =>
          have := hp (parse_text_response m.content)
          rw [hpress] at this
          cases this
    · simp [hres]

/-- Under a backend that returned the object `m`, the append phase of a step
returns normally and its result is the input state with the observation turn
and the assistant turn appended and the call counters advanced. -/
theorem step_append_phase_ok (env : Env) (s : AgentState) (m : ObjMessage)
    (hb : env.backend s.chatCalls = Except.ok m)
    (hp : ∀ bs, (env.press_buttons bs).isOk = true) :
    step_append_phase env s = Except.ok { s with
      shotCalls := s.shotCalls + 1,
      chatCalls := s.chatCalls + 1,
      userAppends := s.userAppends + 1,
      assistantAppends := s.assistantAppends + 1,
      message_history := s.message_history ++
        [user_turn_message (env.location s.shotCalls) (env.coordinates s.shotCalls)
          (env.screenshot s.shotCalls),
         { role := "assistant", content := Content.str m.content }] } := by
  simp only [step_append_phase, get_next_action, hb, chat_via_client]
  rw [process_response_obj_ok env _ m hp]
  simp [List.append_assoc]

/-- Any successful append phase grows the history by exactly two turns and
leaves `max_history` and the running flag unchanged. -/
theorem step_append_phase_shape (env : Env) (s s2 : AgentState)
    (h : step_append_phase env s = Except.ok s2) :
    s2.message_history.length = s.message_history.length + 2 ∧
    s2.max_history = s.max_history ∧ s2.running = s.running := by
  simp only [step_append_phase] at h
  have h2 := process_response_ok_shape env _ s2 _ h
  subst h2
  simp [get_next_action]

/-- Field preservation of `summarize_history`. -/
theorem summarize_history_fields (env : Env) (s : AgentState) :
    (summarize_history env s).running = s.running ∧
    (summarize_history env s).max_history = s.max_history ∧
    (summarize_history env s).userAppends = s.userAppends ∧
    (summarize_history env s).assistantAppends = s.assistantAppends ∧
    (summarize_history env s).message_history.length = 1 :=
  ⟨rfl, rfl, rfl, rfl, rfl⟩

/-- Field preservation of the summarization check. -/
theorem summarize_check_fields (env : Env) (s : AgentState) :
    (summarize_check env s).running = s.running ∧
    (summarize_check env s).max_history = s.max_history ∧
    (summarize_check env s).userAppends = s.userAppends ∧
    (summarize_check env s).assistantAppends = s.assistantAppends := by
  unfold summarize_check
  split
  · exact ⟨rfl, rfl, rfl, rfl⟩
  · exact ⟨rfl, rfl, rfl, rfl⟩

/-- The summarization check restores the step-boundary invariant from an odd
history length. -/
theorem summarize_check_restores_inv (env : Env) (s : AgentState)
    (hodd : s.message_history.length % 2 = 1) (hmax : 1 ≤ s.max_history) :
    HistInv (summarize_check env s) := by
  unfold summarize_check
  split
  · have h1 : (summarize_history env s).message_history.length = 1 := rfl
    have h2 : (summarize_history env s).max_history = s.max_history := rfl
    exact ⟨by rw [h1], by rw [h1, h2]; omega, by rw [h2]; exact hmax⟩
  · next hlt => exact ⟨hodd, by omega, hmax⟩

/-- Under a total environment, one loop iteration returns normally and
advances both per-step append counters by one. -/
theorem agent_step_total (env : Env) (hE : TotalEnv env) (s : AgentState) :
    ∃ s2, agent_step env s = Except.ok s2 ∧ s2.running = s.running ∧
      s2.userAppends = s.userAppends + 1 ∧
      s2.assistantAppends = s.assistantAppends + 1 := by
  obtain ⟨hb, hp⟩ := hE
  have hOk := hb s.chatCalls
  cases hbc : env.backend s.chatCalls with
  | error e => rw [hbc] at hOk; cases hOk
  | ok m =>
    refine ⟨summarize_check env ({ s with
      shotCalls := s.shotCalls + 1,
      chatCalls := s.chatCalls + 1,
      userAppends := s.userAppends + 1,
      assistantAppends := s.assistantAppends + 1,
      message_history := s.message_history ++
        [user_turn_message (env.location s.shotCalls) (env.coordinates s.shotCalls)
          (env.screenshot s.shotCalls),
         { role := "assistant", content := Content.str m.content }] }), ?_, ?_, ?_, ?_⟩
    · unfold agent_step
      rw [step_append_phase_ok env s m hbc hp]
    · exact (summarize_check_fields env _).1
    · exact (summarize_check_fields env _).2.2.1
    · exact (summarize_check_fields env _).2.2.2

/-- Under a total environment the loop consumes its whole fuel, incrementing
the completed-step count and both append counters once per iteration. -/
theorem run_loop_total (env : Env) (hE : TotalEnv env) :
    ∀ (fuel k : Nat) (s : AgentState), s.running = true →
      ∃ s', run_loop env fuel k s = Except.ok (k + fuel, s') ∧
        s'.userAppends = s.userAppends + fuel ∧
        s'.assistantAppends = s.assistantAppends + fuel ∧
        s'.running = true := by
  intro fuel
  induction fuel with
  | zero => exact fun k s hr => ⟨s, rfl, rfl, rfl, hr⟩
  | succ n ih =>
    intro k s hr
    obtain ⟨s2, hstep, hrun, hu, ha⟩ := agent_step_total env hE s
    obtain ⟨s', hloop, hu', ha', hr'⟩ := ih (k + 1) s2 (by rw [hrun, hr])
    refine ⟨s', ?_, by omega, by omega, hr'⟩
    simp only [run_loop, hr, if_true, hstep]
    have harith : k + (n + 1) = (k + 1) + n := by omega
    rw [harith]
    exact hloop

/-- One loop iteration preserves the step-boundary history invariant. -/
theorem agent_step_preserves_inv (env : Env) (s s2 : AgentState) (hI : HistInv s)
    (h : agent_step env s = Except.ok s2) : HistInv s2 := by
  unfold agent_step at h
  cases hsp : step_append_phase env s with
  | error e => rw [hsp] at h; cases h
  | ok mid =>
    rw [hsp] at h
    obtain ⟨hlen, hmax, _⟩ := step_append_phase_shape env s mid hsp
    have h2 := Except.ok.inj h
    subst h2
    refine summarize_check_restores_inv env mid ?_ ?_
    · have h1 := hI.1
      omega
    · rw [hmax]
      exact hI.2.2

/-- The loop preserves the step-boundary history invariant to its final
state. -/
theorem run_loop_preserves_inv (env : Env) :
    ∀ (fuel k : Nat) (s : AgentState) (res : Nat × AgentState), HistInv s →
      run_loop env fuel k s = Except.ok res → HistInv res.2 := by
  intro fuel
  induction fuel with
  | zero =>
    intro k s res hI h
    cases Except.ok.inj h
    exact hI
  | succ n ih =>
    intro k s res hI h
    simp only [run_loop] at h
    by_cases hr : s.running = true
    · rw [if_pos hr] at h
      cases hstep : agent_step env s with
      | error e => rw [hstep] at h; cases h
      | ok s2 =>
        rw [hstep] at h
        exact ih (k + 1) s2 res (agent_step_preserves_inv env s s2 hI hstep) h
    · rw [if_neg hr] at h
      cases Except.ok.inj h
      exact hI

/-! ### Heap lemmas -/

theorem hget_append_lt (h : Heap) (v : List PyMsg) (r : Nat) (hr : r < h.length) :
    hget (h ++ [v]) r = hget h r :=
  List.getD_append h [v] [] r hr

theorem hget_append_self (h : Heap) (v : List PyMsg) :
    hget (h ++ [v]) h.length = v := by
  simp [hget, List.getD_append_right]

theorem hget_set_ne (h : Heap) (i j : Nat) (v : List PyMsg) (hne : i ≠ j) :
    hget (h.set i v) j = hget h j := by
  simp [hget, List.getD, List.getElem?_set_ne hne]

theorem hget_set_self (h : Heap) (i : Nat) (v : List PyMsg) (hi : i < h.length) :
    hget (h.set i v) i = v := by
  simp [hget, List.getD, List.getElem?_set_self, hi]

theorem length_happend (h : Heap) (r : Nat) (m : PyMsg) :
    (happend h r m).length = h.length := by
  simp [happend]

theorem hget_happend_ne (h : Heap) (i j : Nat) (m : PyMsg) (hne : i ≠ j) :
    hget (happend h i m) j = hget h j :=
  hget_set_ne h i j _ hne

theorem hget_happend_self (h : Heap) (i : Nat) (m : PyMsg) (hi : i < h.length) :
    hget (happend h i m) i = hget h i ++ [m] :=
  hget_set_self h i _ hi

/-- Repeatedly appending to one list object only changes the cell of that object,
where it accumulates the mapped elements in order. -/
theorem foldl_happend_spec (f : PyMsg → PyMsg) (r : Nat) :
    ∀ (l : List PyMsg) (h : Heap), r < h.length →
      (l.foldl (fun hh m => happend hh r (f m)) h).length = h.length ∧
      hget (l.foldl (fun hh m => happend hh r (f m)) h) r = hget h r ++ l.map f ∧
      (∀ j, j ≠ r → hget (l.foldl (fun hh m => happend hh r (f m)) h) j = hget h j) := by
  intro l
  induction l with
  | nil => exact fun h _ => ⟨rfl, by simp, fun j _ => rfl⟩
  | cons m rest ih =>
    intro h hr
    have hr2 : r < (happend h r (f m)).length := by rw [length_happend]; exact hr
    obtain ⟨hl, hv, ho⟩ := ih (happend h r (f m)) hr2
    refine ⟨?_, ?_, ?_⟩
    · rw [List.foldl_cons, hl, length_happend]
    · rw [List.foldl_cons, hv, hget_happend_self h r (f m) hr]
      simp
    · intro j hj
      rw [List.foldl_cons, ho j hj, hget_happend_ne h r j (f m) (Ne.symm hj)]

/-- The heap-level flattening pass: it allocates the fresh `ollama_messages`
object at the top of the heap, leaves the history object untouched, and fills
the fresh cell with exactly the value-level `format_messages_for_ollama` of
the history. -/
theorem format_messages_heap_spec (h : Heap) (histRef : Nat) (hr : histRef < h.length) :
    (format_messages_heap h histRef).2 = h.length ∧
    (format_messages_heap h histRef).1.length = h.length + 1 ∧
    hget (format_messages_heap h histRef).1 histRef = hget h histRef ∧
    hget (format_messages_heap h histRef).1 h.length =
      format_messages_for_ollama (hget h histRef) := by
  have hne : histRef ≠ h.length := Nat.ne_of_lt hr
  have hr2 : h.length <
      (h ++ [[system_message]]).length := by
    simp
  obtain ⟨hl, hv, ho⟩ := foldl_happend_spec flattenMsg h.length
    (hget (h ++ [[system_message]]) histRef)
    (h ++ [[system_message]]) hr2
  have hread : hget (h ++ [[system_message]]) histRef
      = hget h histRef := hget_append_lt h _ histRef hr
  have hFdef : format_messages_heap h histRef =
      ((hget (h ++ [[system_message]]) histRef).foldl
        (fun hh m => happend hh h.length (flattenMsg m)) (h ++ [[system_message]]),
       h.length) := rfl
  refine ⟨by rw [hFdef], ?_, ?_, ?_⟩
  · simp only [hFdef]
    rw [hl]
    simp
  · simp only [hFdef]
    rw [ho histRef hne, hread]
  · simp only [hFdef]
    rw [hv, hget_append_self, hread]
    simp [format_messages_for_ollama]

/-! ### Claim theorems -/

/-- C1. The claim says every response with an absent or malformed tool-call
section — including the plain-dict error reply of the adapter itself — makes
`call_tool_from_response` return an empty result list without raising, letting
the loop fall through to the text parser. The code only delivers that for
attribute-style response objects; on the error reply of the adapter itself (a plain
mapping), the attribute access `response.message` raises `AttributeError`, so
the step crashes instead. This theorem evaluates the code at the failing
input: the first two conjuncts show the error reply produced by
`chat_via_client` raising inside `call_tool_from_response`; the third shows
the tolerated object-shaped case the claim describes. -/
theorem call_tool_from_response_error_reply_raises :
    chat_via_client (Except.error ("connection refused")) =
      Response.dict ("Error: connection refused") ∧
    call_tool_from_response (chat_via_client (Except.error ("connection refused")))
        (get_available_functions sampleEnv) =
      Except.error (PyError.attributeError ("dict object has no attribute message")) ∧
    call_tool_from_response (Response.obj { content := "no tools", tool_calls := none })
        (get_available_functions sampleEnv) = Except.ok [] :=
  ⟨rfl, rfl, rfl⟩

/-- C2. Whenever the underlying backend chat call raises with message `e`,
`chat_via_client` does not raise (it is a total function into `Response`); it
returns the dict reply whose assistant text is `"Error: " ++ e` — which starts
with "Error:" — and which carries zero tool invocation requests. -/
theorem chat_via_client_backend_failure (e : String) :
    chat_via_client (Except.error e) = Response.dict ("Error: " ++ e) ∧
    (∃ rest, replyContent (chat_via_client (Except.error e)) = "Error:" ++ rest) ∧
    responseToolCalls (chat_via_client (Except.error e)) = [] := by
  refine ⟨rfl, ⟨" " ++ e, ?_⟩, rfl⟩
  show ("Error: " ++ e) = ("Error:" ++ (" " ++ e))
  rw [← String.append_assoc]
  rfl

/-- C3. The claim says two successive `stop()` calls invoke the emulator
teardown at most once. The embedded `stop` unconditionally calls
`self.emulator.stop()` each time — there is no idempotence guard — so after
two calls the teardown has been invoked exactly twice, contradicting the
claim: the idempotence intended by the spec is not implemented. -/
theorem stop_twice_invokes_teardown_twice :
    (∀ s : AgentState, stop s =
      { s with running := false, emuStopCalls := s.emuStopCalls + 1 }) ∧
    (stop (stop initAgentState)).emuStopCalls = 2 ∧
    ¬ (stop (stop initAgentState)).emuStopCalls ≤ 1 :=
  ⟨fun _ => rfl, rfl, by decide⟩

/-- C4. For every assistant text, the fallback parser output is a sublist of
the fixed button enumeration (hence in enumeration order, not appearance
order), contains no duplicates (each token at most once), and contains a
button exactly when that button occurs — after upper-casing, i.e.
case-insensitively — as a substring of the text; on the text
"i will press up and then A to confirm" it yields exactly ["A", "UP"]. -/
theorem parse_text_response_spec :
    (∀ content : String,
      (parse_text_response content).Sublist valid_buttons ∧
      (parse_text_response content).Nodup ∧
      (∀ b, b ∈ parse_text_response content ↔
        b ∈ valid_buttons ∧ b.toList <:+: upperChars content)) ∧
    parse_text_response ("i will press up and then A to confirm") = ["A", "UP"] := by
  refine ⟨fun content => ⟨List.filter_sublist _, ?_, fun b => ?_⟩, by decide⟩
  · exact (by decide : valid_buttons.Nodup).filter _
  · rw [parse_text_response, List.mem_filter, containsSub_occurs]

/-- C5. `summarize_history` replaces the history by a single synthetic turn
(in particular, for every history longer than `2 * max_history` the result has
length exactly 1 — a hard reset, not a rolling window); the run-loop check
invokes summarization exactly when the history length exceeds
`max_history * 2`; and `max_history` defaults to `MAX_HISTORY = 10`. -/
theorem summarize_resets_history_and_trigger :
    (∀ (env : Env) (s : AgentState), s.message_history.length > 2 * s.max_history →
      (summarize_history env s).message_history.length = 1) ∧
    (∀ (env : Env) (s : AgentState),
      (s.message_history.length > s.max_history * 2 →
        summarize_check env s = summarize_history env s) ∧
      (s.message_history.length ≤ s.max_history * 2 → summarize_check env s = s)) ∧
    initAgentState.max_history = 10 ∧ MAX_HISTORY = 10 := by
  refine ⟨fun env s _ => rfl, fun env s => ⟨fun h => ?_, fun h => ?_⟩, rfl, rfl⟩
  · rw [summarize_check, if_pos h]
  · rw [summarize_check, if_neg (by omega)]

/-- Witness for C5: a 21-turn history (21 > 2 × 10) is reset to length 1 and
does trigger the check. -/
theorem summarize_resets_history_witness :
    sampleState21.message_history.length > 2 * sampleState21.max_history ∧
    (summarize_history sampleEnv sampleState21).message_history.length = 1 ∧
    summarize_check sampleEnv sampleState21 = summarize_history sampleEnv sampleState21 :=
  ⟨by decide,
    summarize_resets_history_and_trigger.1 sampleEnv sampleState21 (by decide),
    (summarize_resets_history_and_trigger.2.1 sampleEnv sampleState21).1 (by decide)⟩

/-- C6. Given two tool invocation requests where the first names an unknown
tool and the second a known tool that succeeds, `call_tool_from_response`
returns exactly two result entries: a "not found" error for the first and a
success for the second. In general the result list is the elementwise image of
the request list in the order received, so each entry depends only on its own
invocation and an error in one never prevents the others from executing. -/
theorem call_tool_sequential_execution (fns : List (String × Func)) (c1 c2 : ToolCall)
    (f : Func) (r content : String)
    (h1 : fns.lookup c1.name = none)
    (h2 : fns.lookup c2.name = some f)
    (h3 : f c2.args = Except.ok r) :
    call_tool_from_response
        (Response.obj { content := content, tool_calls := some [c1, c2] }) fns =
      Except.ok [
        { tool := c1.name, args := c1.args,
          outcome := Except.error ("Function " ++ c1.name ++ " not found") },
        { tool := c2.name, args := c2.args, outcome := Except.ok r }] ∧
    (∀ (m : ObjMessage) (calls : List ToolCall), m.tool_calls = some calls →
      call_tool_from_response (Response.obj m) fns =
        Except.ok (calls.map (execToolCall fns))) := by
  constructor
  · simp [call_tool_from_response, execToolCall, h1, h2, h3]
  · intro m calls hm
    simp [call_tool_from_response, hm]

/-- Witness for C6: a registry knowing only "press_buttons", a first call to
the unknown "navigate_to" and a second to "press_buttons". -/
theorem call_tool_sequential_execution_witness :
    sampleRegistry.lookup unknownCall.name = none ∧
    sampleRegistry.lookup knownCall.name = some sampleFunc ∧
    sampleFunc knownCall.args = Except.ok ("pressed") ∧
    call_tool_from_response
        (Response.obj { content := "using tools", tool_calls := some [unknownCall, knownCall] })
        sampleRegistry =
      Except.ok [
        { tool := "navigate_to", args := [("row", "1")],
          outcome := Except.error ("Function navigate_to not found") },
        { tool := "press_buttons", args := [("buttons", "a")],
          outcome := Except.ok ("pressed") }] :=
  ⟨rfl, rfl, rfl,
    (call_tool_sequential_execution sampleRegistry unknownCall knownCall sampleFunc
      ("pressed") ("using tools") rfl rfl rfl).1⟩

/-- C8. After `summarize_history` the history is exactly one synthetic turn,
and for every `max_history`, summary text and screenshot that turn contains
exactly one image part and at least two text parts (it has three), its first
part being the summary text annotated with the configured `max_history`
count. -/
theorem synthetic_summary_turn_shape :
    (∀ (env : Env) (s : AgentState),
      (summarize_history env s).message_history =
        [synthetic_summary_turn s.max_history
          (replyContent (chat_via_client (env.backend s.chatCalls)))
          (env.screenshot s.shotCalls)]) ∧
    (∀ (maxh : Nat) (t shot : String),
      (partsOf (synthetic_summary_turn maxh t shot)).countP isImagePart = 1 ∧
      2 ≤ (partsOf (synthetic_summary_turn maxh t shot)).countP isTextPart ∧
      (partsOf (synthetic_summary_turn maxh t shot)).head? =
        some (Part.text ("CONVERSATION HISTORY SUMMARY (representing " ++
          toString maxh ++ " previous messages): " ++ t))) := by
  refine ⟨fun env s => rfl, fun maxh t shot => ⟨rfl, ?_, rfl⟩⟩
  show 2 ≤ 3
  omega

/-- C7. Running the agent loop with a step budget `N ≥ 1`, no interruption and
well-behaved collaborators appends an observation turn and an assistant-reply
turn for exactly `N` steps (both per-step append counters end at `N`) and
returns a completed step count equal to `N`. -/
theorem run_completes_budget (env : Env) (N : Nat) (hE : TotalEnv env) (_hN : 1 ≤ N) :
    (run env N).isOk = true ∧ runStepsOf (run env N) = N ∧
    (runStateOf (run env N)).userAppends = N ∧
    (runStateOf (run env N)).assistantAppends = N := by
  obtain ⟨s', hloop, hu, ha, _⟩ := run_loop_total env hE N 0
    (send_initial_observation env { initAgentState with running := true }) rfl
  rw [Nat.zero_add] at hloop
  have hrun : run env N = Except.ok (N, s') := hloop
  have hu0 : (send_initial_observation env
      { initAgentState with running := true }).userAppends = 0 := rfl
  have ha0 : (send_initial_observation env
      { initAgentState with running := true }).assistantAppends = 0 := rfl
  rw [hu0] at hu
  rw [ha0] at ha
  rw [hrun]
  exact ⟨rfl, rfl, by rw [runStateOf, hu]; omega, by rw [runStateOf, ha]; omega⟩

/-- Witness for C7: with the sample collaborators (backend always returns an
object, presses never raise) a 3-step run completes 3 steps and appends 3
observation and 3 assistant turns. -/
theorem run_completes_budget_witness :
    TotalEnv sampleEnv ∧ 1 ≤ 3 ∧ (run sampleEnv 3).isOk = true ∧
    runStepsOf (run sampleEnv 3) = 3 ∧
    (runStateOf (run sampleEnv 3)).userAppends = 3 ∧
    (runStateOf (run sampleEnv 3)).assistantAppends = 3 := by
  have hE : TotalEnv sampleEnv := ⟨fun _ => rfl, fun _ => rfl⟩
  obtain ⟨h1, h2, h3, h4⟩ := run_completes_budget sampleEnv 3 hE (by omega)
  exact ⟨hE, by omega, h1, h2, h3, h4⟩

/-- C10. History-length invariant of `run`: after the initial observation the
history has length 1 (odd); every successful append phase grows the history by
exactly two turns, so at the moment the summarization check is evaluated the
length is odd and at most `2 * max_history + 1`, and immediately after the
check it is odd and at most `2 * max_history`; consequently every completed
run ends in a state satisfying the step-boundary invariant. -/
theorem history_length_invariant :
    (∀ env : Env,
      (send_initial_observation env
        { initAgentState with running := true }).message_history.length = 1 ∧
      HistInv (send_initial_observation env { initAgentState with running := true })) ∧
    (∀ (env : Env) (s s2 : AgentState), HistInv s →
      step_append_phase env s = Except.ok s2 →
      s2.message_history.length = s.message_history.length + 2 ∧
      s2.message_history.length % 2 = 1 ∧
      s2.message_history.length ≤ 2 * s.max_history + 1 ∧
      HistInv (summarize_check env s2) ∧
      (summarize_check env s2).message_history.length ≤ 2 * s.max_history) ∧
    (∀ (env : Env) (N : Nat) (res : Nat × AgentState),
      run env N = Except.ok res → HistInv res.2) := by
  refine ⟨fun env => ⟨rfl, ⟨rfl,
    by show (1 : Nat) ≤ 2 * 10; decide, by show (1 : Nat) ≤ 10; decide⟩⟩, ?_, ?_⟩
  · intro env s s2 hI hstep
    obtain ⟨hodd, hbound, hmax⟩ := hI
    obtain ⟨hlen, hmaxeq, _⟩ := step_append_phase_shape env s s2 hstep
    have hodd2 : s2.message_history.length % 2 = 1 := by omega
    refine ⟨hlen, hodd2, by omega, ?_, ?_⟩
    · exact summarize_check_restores_inv env s2 hodd2 (by rw [hmaxeq]; exact hmax)
    · unfold summarize_check
      split
      · have h1 : (summarize_history env s2).message_history.length = 1 := rfl
        rw [h1]
        omega
      · next hle => rw [hmaxeq] at hle; omega
  · intro env N res hrun
    refine run_loop_preserves_inv env N 0
      (send_initial_observation env { initAgentState with running := true }) res
      ⟨rfl, by show (1 : Nat) ≤ 2 * 10; decide, by show (1 : Nat) ≤ 10; decide⟩ hrun

/-- Witness for C10: the invariant holds after initialization with the sample
environment, and the append phase of the first step lands on a length-3 history
(1 + 2 ≤ 21), after the check still within the bound. -/
theorem history_length_invariant_witness :
    HistInv samplePostInit ∧
    step_append_phase sampleEnv samplePostInit = Except.ok sampleMid ∧
    sampleMid.message_history.length = samplePostInit.message_history.length + 2 ∧
    HistInv (summarize_check sampleEnv sampleMid) ∧
    (summarize_check sampleEnv sampleMid).message_history.length ≤
      2 * samplePostInit.max_history := by
  have h1 : HistInv samplePostInit := ⟨by decide, by decide, by decide⟩
  have h2 : step_append_phase sampleEnv samplePostInit = Except.ok sampleMid := rfl
  obtain ⟨ha, _, _, hb, hc⟩ :=
    history_length_invariant.2.1 sampleEnv samplePostInit sampleMid h1 h2
  exact ⟨h1, h2, ha, hb, hc⟩

/-- C9. Heap-level frame property of `summarize_history`: the synthetic
summarization-request turn is appended only to the freshly allocated copy that
is sent to the backend (`sent` is the flattened history plus the request, and
the reference of the copy differs from that of the stored history); the stored history
object is unchanged at the moment of the backend call and is in fact never
mutated at all; the final stored history is the single synthetic summary turn,
which does not contain the summarization-request turn. -/
theorem summarize_request_only_on_copy (h : Heap) (histRef : Nat)
    (bo : Except String ObjMessage) (maxh : Nat) (shot : String)
    (hr : histRef < h.length) :
    hget (summarize_history_heap h histRef bo maxh shot).heapAtChat histRef =
      hget h histRef ∧
    (summarize_history_heap h histRef bo maxh shot).msgsRef ≠ histRef ∧
    (summarize_history_heap h histRef bo maxh shot).sent =
      format_messages_for_ollama (hget h histRef) ++ [summary_request_message] ∧
    hget (summarize_history_heap h histRef bo maxh shot).finalHeap histRef =
      hget h histRef ∧
    hget (summarize_history_heap h histRef bo maxh shot).finalHeap
        (summarize_history_heap h histRef bo maxh shot).finalHistRef =
      [synthetic_summary_turn maxh (replyContent (chat_via_client bo)) shot] ∧
    summary_request_message ∉
      hget (summarize_history_heap h histRef bo maxh shot).finalHeap
        (summarize_history_heap h histRef bo maxh shot).finalHistRef := by
  obtain ⟨hF2, hFlen, hFhist, hFmsgs⟩ := format_messages_heap_spec h histRef hr
  have hne : (format_messages_heap h histRef).2 ≠ histRef := by
    rw [hF2]
    exact (Nat.ne_of_lt hr).symm
  have hlt : (format_messages_heap h histRef).2 < (format_messages_heap h histRef).1.length := by
    rw [hF2, hFlen]
    omega
  have hchat : (summarize_history_heap h histRef bo maxh shot).heapAtChat =
      happend (format_messages_heap h histRef).1 (format_messages_heap h histRef).2
        summary_request_message := rfl
  have hmsgs : (summarize_history_heap h histRef bo maxh shot).msgsRef =
      (format_messages_heap h histRef).2 := rfl
  have hsent : (summarize_history_heap h histRef bo maxh shot).sent =
      hget (happend (format_messages_heap h histRef).1 (format_messages_heap h histRef).2
        summary_request_message) (format_messages_heap h histRef).2 := rfl
  have hfin : (summarize_history_heap h histRef bo maxh shot).finalHeap =
      happend (format_messages_heap h histRef).1 (format_messages_heap h histRef).2
        summary_request_message ++
        [[synthetic_summary_turn maxh (replyContent (chat_via_client bo)) shot]] := rfl
  have hfinRef : (summarize_history_heap h histRef bo maxh shot).finalHistRef =
      (happend (format_messages_heap h histRef).1 (format_messages_heap h histRef).2
        summary_request_message).length := rfl
  have hist_lt : histRef <
      (happend (format_messages_heap h histRef).1 (format_messages_heap h histRef).2
        summary_request_message).length := by
    rw [length_happend, hFlen]
    omega
  refine ⟨?_, ?_, ?_, ?_, ?_, ?_⟩
  · rw [hchat, hget_happend_ne _ _ _ _ hne, hFhist]
  · rw [hmsgs, hF2]
    exact (Nat.ne_of_lt hr).symm
  · rw [hsent, hget_happend_self _ _ _ hlt]
    rw [hF2, hFmsgs]
  · rw [hfin, hget_append_lt _ _ _ hist_lt, hget_happend_ne _ _ _ _ hne, hFhist]
  · rw [hfin, hfinRef, hget_append_self]
  · rw [hfin, hfinRef, hget_append_self]
    simp [synthetic_summary_turn, summary_request_message]

/-- Witness for C9: a one-object heap whose history cell holds one turn, a
failing backend, `max_history = 10`. -/
theorem summarize_request_only_on_copy_witness :
    0 < sampleHeap.length ∧
    hget (summarize_history_heap sampleHeap 0 (Except.error ("down")) 10 ("shot")).heapAtChat 0 =
      hget sampleHeap 0 ∧
    (summarize_history_heap sampleHeap 0 (Except.error ("down")) 10 ("shot")).sent =
      format_messages_for_ollama (hget sampleHeap 0) ++ [summary_request_message] ∧
    summary_request_message ∉
      hget (summarize_history_heap sampleHeap 0 (Except.error ("down")) 10 ("shot")).finalHeap
        (summarize_history_heap sampleHeap 0 (Except.error ("down")) 10 ("shot")).finalHistRef := by
  have H := summarize_request_only_on_copy sampleHeap 0 (Except.error ("down")) 10 ("shot")
    (by decide)
  exact ⟨by decide, H.1, H.2.2.1, H.2.2.2.2.2⟩

end PokeStarter
